import Mathlib

/-!
Verification of the core logic of a Discord chat bot that relays messages to a
hosted language-model API: a sliding-window rate limiter, a bounded per-user
conversation context, and a retrying API-client wrapper.  Times are modelled as
integers (the code compares `time.time()` values; only their ordering and
differences matter for the verified properties), queues and histories as lists,
and the identity-keyed stores as association lists preserving insertion order,
matching Python dict/defaultdict semantics.
-/

namespace DiscordBot

/-! ## Rate limiter: per-identity timestamp queue (src/utils/rate_limiter.py) -/

/-- Eviction loop shared by `is_allowed` and `_cleanup_if_needed`:
`while user_queue and user_queue[0] < cutoff_time: user_queue.popleft()`.
Since the queue is kept in arrival order, popping from the front while the head
is strictly below the cutoff is `dropWhile`. -/
def evictExpired (cutoff : Int) (q : List Int) : List Int :=
  q.dropWhile (fun ts => decide (ts < cutoff))

/-- Core of `RateLimiter.is_allowed` on one identity's queue: evict timestamps
older than `now - time_window`, then admit and record `now` iff the remaining
count is strictly below `max_requests`.  Returns the verdict and the updated
queue. -/
def isAllowedQueue (maxRequests : Nat) (timeWindow : Int) (now : Int) (q : List Int) :
    Bool × List Int :=
  let q' := evictExpired (now - timeWindow) q
  if q'.length < maxRequests then (true, q' ++ [now]) else (false, q')

/-- The call times among `times` at which a sequence of `is_allowed` calls for
one identity (starting from queue `q`) returns `True`. -/
def admittedTimes (maxRequests : Nat) (timeWindow : Int) (q : List Int) :
    List Int → List Int
  | [] => []
  | t :: ts =>
    let r := isAllowedQueue maxRequests timeWindow t q
    if r.1 then t :: admittedTimes maxRequests timeWindow r.2 ts
    else admittedTimes maxRequests timeWindow r.2 ts

/-- Number of elements of `l` lying in the trailing window `[T - timeWindow, T]`. -/
def windowCount (timeWindow T : Int) (l : List Int) : Nat :=
  (l.filter (fun x => decide (T - timeWindow ≤ x) && decide (x ≤ T))).length

theorem admittedTimes_cons_allowed (maxRequests : Nat) (timeWindow t : Int)
    (q : List Int) (ts : List Int)
    (h : (evictExpired (t - timeWindow) q).length < maxRequests) :
    admittedTimes maxRequests timeWindow q (t :: ts) =
      t :: admittedTimes maxRequests timeWindow
        (evictExpired (t - timeWindow) q ++ [t]) ts := by
  simp [admittedTimes, isAllowedQueue, h]

theorem admittedTimes_cons_denied (maxRequests : Nat) (timeWindow t : Int)
    (q : List Int) (ts : List Int)
    (h : ¬ (evictExpired (t - timeWindow) q).length < maxRequests) :
    admittedTimes maxRequests timeWindow q (t :: ts) =
      admittedTimes maxRequests timeWindow (evictExpired (t - timeWindow) q) ts := by
  simp [admittedTimes, isAllowedQueue, h]

theorem mem_admittedTimes {maxRequests : Nat} {timeWindow : Int} :
    ∀ {times q : List Int} {x : Int},
      x ∈ admittedTimes maxRequests timeWindow q times → x ∈ times := by
  intro times
  induction times with
  | nil => intro q x hx; simp [admittedTimes] at hx
  | cons t ts ih =>
    intro q x hx
    by_cases hc : (evictExpired (t - timeWindow) q).length < maxRequests
    · rw [admittedTimes_cons_allowed maxRequests timeWindow t q ts hc] at hx
      rcases List.mem_cons.mp hx with h | h
      · exact h ▸ List.mem_cons_self t ts
      · exact List.mem_cons_of_mem _ (ih h)
    · rw [admittedTimes_cons_denied maxRequests timeWindow t q ts hc] at hx
      exact List.mem_cons_of_mem _ (ih hx)

theorem evictExpired_sublist (cutoff : Int) (q : List Int) :
    (evictExpired cutoff q).Sublist q :=
  List.dropWhile_sublist _

theorem windowCount_le_length (timeWindow T : Int) (l : List Int) :
    windowCount timeWindow T l ≤ l.length :=
  List.length_filter_le _ _

theorem windowCount_append (timeWindow T : Int) (l₁ l₂ : List Int) :
    windowCount timeWindow T (l₁ ++ l₂) =
      windowCount timeWindow T l₁ + windowCount timeWindow T l₂ := by
  simp [windowCount, List.filter_append]

theorem windowCount_cons (timeWindow T t : Int) (l : List Int) :
    windowCount timeWindow T (t :: l) =
      windowCount timeWindow T [t] + windowCount timeWindow T l := by
  have : (t :: l) = [t] ++ l := rfl
  rw [this, windowCount_append]

theorem windowCount_eq_zero {timeWindow T : Int} {l : List Int}
    (h : ∀ x ∈ l, ¬ x ≤ T) : windowCount timeWindow T l = 0 := by
  unfold windowCount
  rw [List.filter_eq_nil_iff.mpr]
  · rfl
  · intro a ha
    simp only [Bool.and_eq_true, decide_eq_true_eq, not_and]
    intro _
    exact h a ha

/-- Evicting timestamps strictly older than `t - timeWindow` does not change the
count inside a trailing window ending at any `T ≥ t`: the evicted timestamps are
below `T - timeWindow`. -/
theorem windowCount_evictExpired (timeWindow T t : Int) (q : List Int) (hTt : t ≤ T) :
    windowCount timeWindow T (evictExpired (t - timeWindow) q) =
      windowCount timeWindow T q := by
  conv_rhs =>
    rw [← List.takeWhile_append_dropWhile (fun ts => decide (ts < t - timeWindow)) q]
  rw [windowCount_append]
  have hz : windowCount timeWindow T
      (q.takeWhile (fun ts => decide (ts < t - timeWindow))) = 0 := by
    unfold windowCount
    rw [List.filter_eq_nil_iff.mpr]
    · rfl
    · intro a ha
      have hlt : a < t - timeWindow := by
        have := List.mem_takeWhile_imp ha
        simpa using this
      simp only [Bool.and_eq_true, decide_eq_true_eq, not_and]
      intro hge
      omega
  rw [hz, Nat.zero_add]
  rfl

/-- Key induction: starting from a sorted queue of at most `maxRequests`
timestamps that all precede the (sorted) remaining call times, the timestamps in
the queue together with the future admitted call times never exceed
`maxRequests` inside any trailing window. -/
theorem admitted_window_bound (maxRequests : Nat) (timeWindow : Int) :
    ∀ (times q : List Int), List.Sorted (· ≤ ·) times →
      List.Sorted (· ≤ ·) q → q.length ≤ maxRequests →
      (∀ x ∈ q, ∀ t ∈ times, x ≤ t) → ∀ T : Int,
      windowCount timeWindow T q +
        windowCount timeWindow T (admittedTimes maxRequests timeWindow q times) ≤
          maxRequests := by
  intro times
  induction times with
  | nil =>
    intro q _ _ hlen _ T
    simp only [admittedTimes]
    have h0 : windowCount timeWindow T ([] : List Int) = 0 := rfl
    rw [h0]
    exact Nat.le_trans (Nat.add_le_add_right (windowCount_le_length _ _ _) 0)
      (by omega)
  | cons t ts ih =>
    intro q hts hq hlen hqt T
    rw [List.sorted_cons] at hts
    obtain ⟨htts, hts'⟩ := hts
    have hq'sub := evictExpired_sublist (t - timeWindow) q
    have hq'sorted : List.Sorted (· ≤ ·) (evictExpired (t - timeWindow) q) :=
      List.Pairwise.sublist hq'sub hq
    have hq'len : (evictExpired (t - timeWindow) q).length ≤ q.length :=
      hq'sub.length_le
    have hq'mem : ∀ x ∈ evictExpired (t - timeWindow) q, x ∈ q :=
      fun x hx => hq'sub.subset hx
    by_cases hc : (evictExpired (t - timeWindow) q).length < maxRequests
    · rw [admittedTimes_cons_allowed maxRequests timeWindow t q ts hc]
      by_cases hT : t ≤ T
      · rw [windowCount_cons,
          ← windowCount_evictExpired timeWindow T t q hT]
        have hmemle : ∀ x ∈ evictExpired (t - timeWindow) q, x ≤ t :=
          fun x hx => hqt x (hq'mem x hx) t (List.mem_cons_self t ts)
        have happ : List.Sorted (· ≤ ·) (evictExpired (t - timeWindow) q ++ [t]) :=
          List.pairwise_append.mpr ⟨hq'sorted, List.pairwise_singleton _ _,
            fun a ha b hb => by
              rw [List.mem_singleton] at hb
              subst hb
              exact hmemle a ha⟩
        have hlen' : (evictExpired (t - timeWindow) q ++ [t]).length ≤ maxRequests := by
          rw [List.length_append, List.length_singleton]
          omega
        have hqt' : ∀ x ∈ evictExpired (t - timeWindow) q ++ [t], ∀ u ∈ ts, x ≤ u := by
          intro x hx u hu
          rw [List.mem_append, List.mem_singleton] at hx
          rcases hx with hx | hx
          · exact hqt x (hq'mem x hx) u (List.mem_cons_of_mem t hu)
          · subst hx; exact htts u hu
        have hrec := ih (evictExpired (t - timeWindow) q ++ [t]) hts' happ hlen' hqt' T
        rw [windowCount_append] at hrec
        omega
      · have hz1 : windowCount timeWindow T
            (t :: admittedTimes maxRequests timeWindow
              (evictExpired (t - timeWindow) q ++ [t]) ts) = 0 := by
          apply windowCount_eq_zero
          intro x hx
          rw [List.mem_cons] at hx
          rcases hx with hx | hx
          · subst hx; exact hT
          · have hxts := mem_admittedTimes hx
            have := htts x hxts
            intro hxT
            exact hT (le_trans this hxT)
        rw [hz1]
        have := windowCount_le_length timeWindow T q
        omega
    · rw [admittedTimes_cons_denied maxRequests timeWindow t q ts hc]
      have hqt' : ∀ x ∈ evictExpired (t - timeWindow) q, ∀ u ∈ ts, x ≤ u :=
        fun x hx u hu => hqt x (hq'mem x hx) u (List.mem_cons_of_mem t hu)
      have hrec := ih (evictExpired (t - timeWindow) q) hts' hq'sorted
        (by omega) hqt' T
      by_cases hT : t ≤ T
      · rw [← windowCount_evictExpired timeWindow T t q hT]
        exact hrec
      · have hz : windowCount timeWindow T
            (admittedTimes maxRequests timeWindow (evictExpired (t - timeWindow) q) ts)
              = 0 := by
          apply windowCount_eq_zero
          intro x hx
          have hxts := mem_admittedTimes hx
          have := htts x hxts
          intro hxT
          exact hT (le_trans this hxT)
        rw [hz]
        have := windowCount_le_length timeWindow T q
        omega

/-- Claim C1: for one identity, over any clock-supplied (non-decreasing) sequence
of `is_allowed` call times starting from an empty queue, at most `max_requests`
of the calls return `True` inside any trailing `time_window`-second interval;
`is_allowed` first evicts timestamps older than `now - time_window` and admits,
recording `now`, exactly when the remaining count is strictly below
`max_requests`. -/
theorem is_allowed_sliding_window_bound (maxRequests : Nat) (timeWindow : Int)
    (times : List Int) (hsorted : List.Sorted (· ≤ ·) times) (T : Int) :
    windowCount timeWindow T (admittedTimes maxRequests timeWindow [] times) ≤
      maxRequests := by
  have h := admitted_window_bound maxRequests timeWindow times []
    hsorted (List.sorted_nil) (by simp) (by simp) T
  have h0 : windowCount timeWindow T ([] : List Int) = 0 := rfl
  rw [h0] at h
  omega

/-- Witness for C1: the scenario `max_requests = 2`, `time_window = 60`, calls at
`t = 0, 1, 2, 61`; the bound holds for the window ending at `T = 61` (the
admitted calls there are those at 1 and 61, since 0 has expired and 2 was
denied). -/
theorem is_allowed_sliding_window_bound_witness :
    List.Sorted (· ≤ ·) ([0, 1, 2, 61] : List Int) ∧
      admittedTimes 2 60 [] [0, 1, 2, 61] = [0, 1, 61] ∧
      windowCount 60 61 (admittedTimes 2 60 [] [0, 1, 2, 61]) ≤ 2 :=
  ⟨by decide, by decide,
    is_allowed_sliding_window_bound 2 60 [0, 1, 2, 61] (by decide) 61⟩

/-! ## Rate limiter: full state (identity-keyed store, cleanup, reset) -/

/-- Static configuration of `RateLimiter.__init__`: `max_requests`,
`time_window`, and the hard-coded `cleanup_interval = 300`. -/
structure RLConfig where
  max_requests : Nat
  time_window : Int
  cleanup_interval : Int
deriving DecidableEq

/-- Mutable state of a `RateLimiter`: `user_requests` (a `defaultdict(deque)`
keyed by user id, modelled as an insertion-ordered association list) and
`last_cleanup`. -/
structure RLState where
  user_requests : List (Nat × List Int)
  last_cleanup : Int
deriving DecidableEq

/-- Reading `self.user_requests[user_id]` on a `defaultdict(deque)`: returns the
stored queue if the key is present; otherwise inserts a fresh empty queue for
the key and returns it.  Yields the queue and the (possibly extended) map. -/
def ddAccess (m : List (Nat × List Int)) (k : Nat) : List Int × List (Nat × List Int) :=
  match m.find? (fun p => p.1 == k) with
  | some p => (p.2, m)
  | none => ([], m ++ [(k, [])])

/-- Pure lookup of an identity's queue (absent keys read as empty). -/
def ddLookup (m : List (Nat × List Int)) (k : Nat) : List Int :=
  match m.find? (fun p => p.1 == k) with
  | some p => p.2
  | none => []

/-- In-place replacement of the queue stored for a (present) key, keeping the
map's insertion order, as Python's in-place deque mutation does. -/
def ddUpdate (m : List (Nat × List Int)) (k : Nat) (v : List Int) :
    List (Nat × List Int) :=
  m.map (fun p => if p.1 == k then (p.1, v) else p)

/-- `RateLimiter._cleanup_if_needed`: if less than `cleanup_interval` has passed
since `last_cleanup`, do nothing; otherwise drop all timestamps older than
`now - time_window` from every queue, remove identities whose queue becomes
empty, and record `now` as the last cleanup time. -/
def cleanup_if_needed (cfg : RLConfig) (now : Int) (st : RLState) : RLState :=
  if now - st.last_cleanup < cfg.cleanup_interval then st
  else
    let cutoff := now - cfg.time_window
    let cleaned := st.user_requests.map (fun p => (p.1, evictExpired cutoff p.2))
    ⟨cleaned.filter (fun p => !p.2.isEmpty), now⟩

/-- `RateLimiter.is_allowed` on the full state: run the periodic cleanup, fetch
the caller's queue (creating it if absent), evict expired timestamps, and admit
(recording `now`) iff the remaining count is strictly below `max_requests`. -/
def is_allowed (cfg : RLConfig) (uid : Nat) (now : Int) (st : RLState) :
    Bool × RLState :=
  let st1 := cleanup_if_needed cfg now st
  let a := ddAccess st1.user_requests uid
  let r := isAllowedQueue cfg.max_requests cfg.time_window now a.1
  (r.1, ⟨ddUpdate a.2 uid r.2, st1.last_cleanup⟩)

/-- `RateLimiter.get_wait_time`: fetch the caller's queue (via the same
`defaultdict` access); return 0 if it is empty or below capacity, else
`max 0 (time_window - (now - oldest))`. -/
def get_wait_time (cfg : RLConfig) (uid : Nat) (now : Int) (st : RLState) :
    Int × RLState :=
  let a := ddAccess st.user_requests uid
  let value : Int :=
    if a.1.isEmpty || a.1.length < cfg.max_requests then 0
    else max 0 (cfg.time_window - (now - a.1.headI))
  (value, ⟨a.2, st.last_cleanup⟩)

/-- `RateLimiter.reset_user`: delete the identity's entry if present. -/
def reset_user (uid : Nat) (st : RLState) : RLState :=
  ⟨st.user_requests.filter (fun p => !(p.1 == uid)), st.last_cleanup⟩

/-- One public operation on a `RateLimiter` (with the clock reading it uses). -/
inductive RLOp where
  | allow (uid : Nat) (now : Int)
  | wait (uid : Nat) (now : Int)
  | reset (uid : Nat)
  | cleanup (now : Int)

def applyOp (cfg : RLConfig) (st : RLState) : RLOp → RLState
  | .allow uid now => (is_allowed cfg uid now st).2
  | .wait uid now => (get_wait_time cfg uid now st).2
  | .reset uid => reset_user uid st
  | .cleanup now => cleanup_if_needed cfg now st

def applyOps (cfg : RLConfig) (st : RLState) : List RLOp → RLState
  | [] => st
  | op :: ops => applyOps cfg (applyOp cfg st op) ops

/-- Every identity's stored queue has at most `max_requests` timestamps. -/
def queuesBounded (cfg : RLConfig) (st : RLState) : Bool :=
  st.user_requests.all (fun p => p.2.length ≤ cfg.max_requests)

theorem ddAccess_fst (m : List (Nat × List Int)) (k : Nat) :
    (ddAccess m k).1 = ddLookup m k := by
  unfold ddAccess ddLookup
  cases m.find? (fun p => p.1 == k) <;> rfl

theorem ddLookup_append_empty (m : List (Nat × List Int)) (k j : Nat) :
    ddLookup (m ++ [(k, [])]) j = ddLookup m j := by
  unfold ddLookup
  rw [List.find?_append]
  cases hf : m.find? (fun p => p.1 == j) with
  | some p => rfl
  | none =>
    cases hk : ([((k : Nat), ([] : List Int))].find? (fun p => p.1 == j)) with
    | none => rfl
    | some p =>
      have hmem := List.mem_of_find?_eq_some hk
      rw [List.mem_singleton] at hmem
      subst hmem
      rfl

theorem ddAccess_snd_cases (m : List (Nat × List Int)) (k : Nat) :
    (ddAccess m k).2 = m ∨
      (m.find? (fun p => p.1 == k) = none ∧ (ddAccess m k).2 = m ++ [(k, [])]) := by
  unfold ddAccess
  cases hf : m.find? (fun p => p.1 == k) with
  | some p => exact Or.inl rfl
  | none => exact Or.inr ⟨rfl, rfl⟩

/-- Claim C5 counterexample: for a never-seen identity, `get_wait_time` does
mutate the limiter's state — the `defaultdict` access inserts a fresh empty
entry for that identity, so the state is not exactly as it was. -/
theorem get_wait_time_creates_entry_counterexample :
    (get_wait_time ⟨10, 60, 300⟩ 1 0 ⟨[], 0⟩).2 ≠ (⟨[], 0⟩ : RLState) ∧
      (get_wait_time ⟨10, 60, 300⟩ 1 0 ⟨[], 0⟩).2.user_requests = [(1, [])] := by
  constructor
  · intro h
    have := congrArg RLState.user_requests h
    simp [get_wait_time, ddAccess, ddLookup] at this
  · rfl

/-- Claim C5 as amended: `get_wait_time` records no timestamp, evicts no
timestamp and leaves every identity's queue (read through lookup) unchanged, as
well as the cleanup clock; for an identity already present the state is exactly
unchanged, but for a never-seen identity the `defaultdict` access appends a
fresh empty entry for it. -/
theorem get_wait_time_state_effect (cfg : RLConfig) (uid : Nat) (now : Int)
    (st : RLState) :
    (get_wait_time cfg uid now st).2.last_cleanup = st.last_cleanup ∧
    (∀ k, ddLookup (get_wait_time cfg uid now st).2.user_requests k =
      ddLookup st.user_requests k) ∧
    ((get_wait_time cfg uid now st).2 = st ∨
      (st.user_requests.find? (fun p => p.1 == uid) = none ∧
        (get_wait_time cfg uid now st).2.user_requests =
          st.user_requests ++ [(uid, [])])) := by
  have hsnd : (get_wait_time cfg uid now st).2 =
      ⟨(ddAccess st.user_requests uid).2, st.last_cleanup⟩ := rfl
  rcases ddAccess_snd_cases st.user_requests uid with hm | ⟨hf, hm⟩
  · refine ⟨by rw [hsnd], fun k => by rw [hsnd]; simp only [hm], Or.inl ?_⟩
    rw [hsnd, hm]
  · refine ⟨by rw [hsnd], fun k => ?_, Or.inr ⟨hf, by rw [hsnd, hm]⟩⟩
    rw [hsnd]
    simp only [hm]
    exact ddLookup_append_empty st.user_requests uid k

/-- Claim C6: `get_wait_time` returns 0 whenever the identity holds fewer than
`max_requests` recorded timestamps, and otherwise (for a non-empty queue)
returns `time_window - (now - oldest_recorded_timestamp)` floored at 0. -/
theorem get_wait_time_value (cfg : RLConfig) (uid : Nat) (now : Int)
    (st : RLState) :
    ((ddLookup st.user_requests uid).length < cfg.max_requests →
      (get_wait_time cfg uid now st).1 = 0) ∧
    (cfg.max_requests ≤ (ddLookup st.user_requests uid).length →
      ddLookup st.user_requests uid ≠ [] →
      (get_wait_time cfg uid now st).1 =
        max 0 (cfg.time_window - (now - (ddLookup st.user_requests uid).headI))) := by
  have hfst : (get_wait_time cfg uid now st).1 =
      if (ddAccess st.user_requests uid).1.isEmpty ||
          (ddAccess st.user_requests uid).1.length < cfg.max_requests then (0 : Int)
      else max 0 (cfg.time_window -
        (now - (ddAccess st.user_requests uid).1.headI)) := rfl
  rw [hfst, ddAccess_fst]
  constructor
  · intro h
    simp [h]
  · intro hge hne
    have hcond : ¬ (((ddLookup st.user_requests uid).isEmpty ||
        decide ((ddLookup st.user_requests uid).length < cfg.max_requests)) = true) := by
      simp only [Bool.or_eq_true, List.isEmpty_iff, decide_eq_true_eq, not_or]
      exact ⟨hne, by omega⟩
    rw [if_neg hcond]

/-- Witness for C6: the spec scenario — `max_requests = 2`, `time_window = 60`,
identity 1 admitted at t = 0 and t = 1 (queue `[0, 1]`); `get_wait_time` at
t = 2 returns 58, and over the call sequence 0, 1, 2, 61 exactly the calls at
0, 1 and 61 are admitted (the one at t = 2 is denied and t = 0 has expired by
t = 61). -/
theorem get_wait_time_value_witness :
    (2 : Nat) ≤ (ddLookup [(1, [0, 1])] 1).length ∧
    ddLookup [(1, [0, 1])] 1 ≠ [] ∧
    (get_wait_time ⟨2, 60, 300⟩ 1 2 ⟨[(1, [0, 1])], 0⟩).1 = 58 ∧
    admittedTimes 2 60 [] [0, 1, 2, 61] = [0, 1, 61] := by
  refine ⟨by decide, by decide, ?_, by decide⟩
  have h := (get_wait_time_value ⟨2, 60, 300⟩ 1 2 ⟨[(1, [0, 1])], 0⟩).2
    (by decide) (by decide)
  rw [h]
  decide

theorem queuesBounded_iff (cfg : RLConfig) (st : RLState) :
    queuesBounded cfg st = true ↔
      ∀ p ∈ st.user_requests, p.2.length ≤ cfg.max_requests := by
  simp [queuesBounded, List.all_eq_true]

theorem ddLookup_length_le (cfg : RLConfig) (st : RLState)
    (h : queuesBounded cfg st = true) (k : Nat) :
    (ddLookup st.user_requests k).length ≤ cfg.max_requests := by
  unfold ddLookup
  cases hf : st.user_requests.find? (fun p => p.1 == k) with
  | none => exact Nat.zero_le _
  | some p =>
    exact (queuesBounded_iff cfg st).mp h p (List.mem_of_find?_eq_some hf)

theorem isAllowedQueue_snd_length (maxRequests : Nat) (timeWindow now : Int)
    (q : List Int) (h : q.length ≤ maxRequests) :
    ((isAllowedQueue maxRequests timeWindow now q).2).length ≤ maxRequests := by
  unfold isAllowedQueue
  dsimp only
  split
  · rename_i hc
    rw [List.length_append, List.length_singleton]
    omega
  · dsimp only
    have := (evictExpired_sublist (now - timeWindow) q).length_le
    omega

theorem cleanup_if_needed_bounded (cfg : RLConfig) (now : Int) (st : RLState)
    (h : queuesBounded cfg st = true) :
    queuesBounded cfg (cleanup_if_needed cfg now st) = true := by
  unfold cleanup_if_needed
  split
  · exact h
  · rw [queuesBounded_iff]
    intro p hp
    have hp' := (List.mem_filter.mp hp).1
    rcases List.mem_map.mp hp' with ⟨q, hq, hpq⟩
    subst hpq
    have hb := (queuesBounded_iff cfg st).mp h q hq
    have := (evictExpired_sublist (now - cfg.time_window) q.2).length_le
    dsimp only
    omega

theorem applyOp_bounded (cfg : RLConfig) (st : RLState) (op : RLOp)
    (h : queuesBounded cfg st = true) :
    queuesBounded cfg (applyOp cfg st op) = true := by
  cases op with
  | allow uid now =>
    have h1 := cleanup_if_needed_bounded cfg now st h
    rw [queuesBounded_iff]
    intro p hp
    simp only [applyOp, is_allowed] at hp
    rcases List.mem_map.mp hp with ⟨q, hq, hpq⟩
    have hqlen : ((isAllowedQueue cfg.max_requests cfg.time_window now
        (ddAccess (cleanup_if_needed cfg now st).user_requests uid).1).2).length ≤
          cfg.max_requests := by
      apply isAllowedQueue_snd_length
      rw [ddAccess_fst]
      exact ddLookup_length_le cfg _ h1 uid
    have hqmem : q ∈ (cleanup_if_needed cfg now st).user_requests ∨ q = (uid, []) := by
      rcases ddAccess_snd_cases (cleanup_if_needed cfg now st).user_requests uid
        with hm | ⟨_, hm⟩
      · exact Or.inl (hm ▸ hq)
      · rw [hm] at hq
        rcases List.mem_append.mp hq with hq' | hq'
        · exact Or.inl hq'
        · exact Or.inr (List.mem_singleton.mp hq')
    have hqb : q.2.length ≤ cfg.max_requests := by
      rcases hqmem with hq' | hq'
      · exact (queuesBounded_iff cfg _).mp h1 q hq'
      · rw [hq']
        exact Nat.zero_le _
    subst hpq
    split
    · exact hqlen
    · exact hqb
  | wait uid now =>
    rw [queuesBounded_iff]
    intro p hp
    simp only [applyOp] at hp
    have hsnd : (get_wait_time cfg uid now st).2.user_requests =
        (ddAccess st.user_requests uid).2 := rfl
    rw [hsnd] at hp
    rcases ddAccess_snd_cases st.user_requests uid with hm | ⟨_, hm⟩
    · exact (queuesBounded_iff cfg st).mp h p (hm ▸ hp)
    · rw [hm] at hp
      rcases List.mem_append.mp hp with hp' | hp'
      · exact (queuesBounded_iff cfg st).mp h p hp'
      · rw [List.mem_singleton.mp hp']
        exact Nat.zero_le _
  | reset uid =>
    rw [queuesBounded_iff]
    intro p hp
    simp only [applyOp, reset_user] at hp
    exact (queuesBounded_iff cfg st).mp h p (List.mem_filter.mp hp).1
  | cleanup now => exact cleanup_if_needed_bounded cfg now st h

/-- Claim C10: after any sequence of rate-limiter operations (`is_allowed`,
`get_wait_time`, `reset_user`, periodic cleanup) starting from the fresh empty
state, every identity's stored timestamp queue has at most `max_requests`
entries: `is_allowed` appends only when the post-eviction count is strictly
below `max_requests`, and no other operation adds a timestamp. -/
theorem rate_limiter_queues_bounded (cfg : RLConfig) (t0 : Int)
    (ops : List RLOp) :
    queuesBounded cfg (applyOps cfg ⟨[], t0⟩ ops) = true := by
  have hgen : ∀ (l : List RLOp) (st : RLState), queuesBounded cfg st = true →
      queuesBounded cfg (applyOps cfg st l) = true := by
    intro l
    induction l with
    | nil => intro st h; exact h
    | cons op l ih =>
      intro st h
      exact ih _ (applyOp_bounded cfg st op h)
  exact hgen ops ⟨[], t0⟩ rfl

/-! ## Conversation store: per-identity bounded context (src/bot.py,
`user_contexts` handling inside `on_message`) -/

/-- One role-tagged chat message, as the dicts
`{"role": ..., "content": ...}` stored in `user_contexts` and sent to the API. -/
structure ChatMessage where
  role : String
  content : String
deriving DecidableEq

/-- The truncation step of `on_message`:
`if len(ctx) > max_messages: ctx = ctx[-max_messages:]`.
Python's `ctx[-m:]` is the last `m` elements for `m > 0` but the whole list for
`m = 0` (since `-0 == 0`), which the inner test reproduces. -/
def truncateContext (maxMessages : Nat) (ctx : List ChatMessage) : List ChatMessage :=
  if maxMessages < ctx.length then
    if maxMessages = 0 then ctx else ctx.drop (ctx.length - maxMessages)
  else ctx

/-- One inbound message turn that passed rate limiting and validation:
the validated user text, and the API call's outcome (`some reply` on success
with reply text, `none` when `get_chat_response` reports failure). -/
structure Turn where
  userText : String
  reply : Option String

/-- Effect of one `on_message` turn on the caller's stored context: append the
user message, truncate to the last `2 * max_context_length` entries, then append
the assistant reply only if the API call succeeded (on failure the handler
returns right after sending the error text). -/
def handleTurn (maxContextLength : Nat) (ctx : List ChatMessage) (t : Turn) :
    List ChatMessage :=
  let ctx1 := truncateContext (2 * maxContextLength)
    (ctx ++ [⟨"user", t.userText⟩])
  match t.reply with
  | some r => ctx1 ++ [⟨"assistant", r⟩]
  | none => ctx1

/-- A sequence of turns for one identity, starting from context `ctx`. -/
def runTurns (maxContextLength : Nat) (ctx : List ChatMessage) :
    List Turn → List ChatMessage
  | [] => ctx
  | t :: ts => runTurns maxContextLength (handleTurn maxContextLength ctx t) ts

theorem truncateContext_suffix (maxMessages : Nat) (ctx : List ChatMessage) :
    (truncateContext maxMessages ctx).IsSuffix ctx := by
  unfold truncateContext
  split
  · split
    · exact List.suffix_refl ctx
    · exact List.drop_suffix _ _
  · exact List.suffix_refl ctx

theorem truncateContext_length_le (maxMessages : Nat) (ctx : List ChatMessage)
    (h : maxMessages ≠ 0) :
    (truncateContext maxMessages ctx).length ≤ maxMessages := by
  unfold truncateContext
  by_cases hgt : maxMessages < ctx.length
  · rw [if_pos hgt, if_neg h, List.length_drop]
    omega
  · rw [if_neg hgt]
    omega

theorem truncateContext_getLast?_concat (maxMessages : Nat) (hm : maxMessages ≠ 0)
    (l : List ChatMessage) (x : ChatMessage) :
    (truncateContext maxMessages (l ++ [x])).getLast? = some x := by
  obtain ⟨pre, hpre⟩ := truncateContext_suffix maxMessages (l ++ [x])
  have hne : truncateContext maxMessages (l ++ [x]) ≠ [] := by
    intro hnil
    unfold truncateContext at hnil
    by_cases hgt : maxMessages < (l ++ [x]).length
    · rw [if_pos hgt, if_neg hm] at hnil
      have hlen := congrArg List.length hnil
      rw [List.length_drop] at hlen
      simp only [List.length_nil, List.length_append, List.length_singleton] at hlen
      omega
    · rw [if_neg hgt] at hnil
      simp at hnil
  have h1 : (pre ++ truncateContext maxMessages (l ++ [x])).getLast? =
      (truncateContext maxMessages (l ++ [x])).getLast? := by
    rw [List.getLast?_append, Option.or_of_isSome (List.getLast?_isSome.mpr hne)]
  rw [← h1, hpre, List.getLast?_concat]

theorem handleTurn_length_le (maxContextLength : Nat) (ctx : List ChatMessage)
    (t : Turn) (h : 1 ≤ maxContextLength) :
    (handleTurn maxContextLength ctx t).length ≤ 2 * maxContextLength + 1 := by
  have h1 : (truncateContext (2 * maxContextLength)
      (ctx ++ [⟨"user", t.userText⟩])).length ≤ 2 * maxContextLength :=
    truncateContext_length_le _ _ (by omega)
  unfold handleTurn
  cases t.reply with
  | some r =>
    dsimp only
    rw [List.length_append, List.length_singleton]
    omega
  | none => exact Nat.le_trans h1 (by omega)

/-- Claim C2 counterexample: with `max_context_length = 1` (cap 2), the spec
scenario — user A / reply B / user C / reply D — leaves the stored history
`[B, C, D]` with 3 entries, not `[C, D]`: `on_message` truncates only after
appending the user message, never after appending the assistant reply, so the
assistant append can push the history one past the cap. -/
theorem context_scenario_counterexample :
    runTurns 1 [] [⟨"A", some "B"⟩, ⟨"C", some "D"⟩] =
      [⟨"assistant", "B"⟩, ⟨"user", "C"⟩, ⟨"assistant", "D"⟩] ∧
    2 * 1 < (runTurns 1 [] [⟨"A", some "B"⟩, ⟨"C", some "D"⟩]).length := by
  constructor
  · rfl
  · decide

/-- Claim C2 as amended: for `max_context_length ≥ 1`, after any sequence of
turns the stored history has at most `2 * max_context_length + 1` entries (the
cap `2 * max_context_length` is enforced only at the user-message append, and a
successful turn then appends the assistant reply without re-truncating), and
truncation always keeps a suffix — the oldest entries are discarded first and
the survivors' relative order is preserved. -/
theorem context_length_bound (maxContextLength : Nat)
    (h : 1 ≤ maxContextLength) :
    (∀ ts : List Turn, (runTurns maxContextLength [] ts).length ≤
      2 * maxContextLength + 1) ∧
    (∀ (m : Nat) (c : List ChatMessage), (truncateContext m c).IsSuffix c) := by
  constructor
  · have hgen : ∀ (ts : List Turn) (ctx : List ChatMessage),
        ctx.length ≤ 2 * maxContextLength + 1 →
        (runTurns maxContextLength ctx ts).length ≤ 2 * maxContextLength + 1 := by
      intro ts
      induction ts with
      | nil => intro ctx hctx; exact hctx
      | cons t ts ih =>
        intro ctx hctx
        exact ih _ (handleTurn_length_le maxContextLength ctx t h)
    intro ts
    exact hgen ts [] (by simp)
  · intro m c
    exact truncateContext_suffix m c

/-- Witness for C2 (amended): with `max_context_length = 1`, the scenario run
user A / reply B / user C / reply D stays within the amended bound of
`2 * 1 + 1 = 3` entries. -/
theorem context_length_bound_witness :
    1 ≤ 1 ∧
      (runTurns 1 [] [⟨"A", some "B"⟩, ⟨"C", some "D"⟩]).length ≤ 2 * 1 + 1 :=
  ⟨Nat.le_refl 1,
    (context_length_bound 1 (Nat.le_refl 1)).1 [⟨"A", some "B"⟩, ⟨"C", some "D"⟩]⟩

/-- Claim C3 counterexample: a failed turn does not leave the history unchanged.
Starting from an empty history, a turn whose API call fails leaves the user
message appended: the history becomes `[{user, "hi"}]`, not `[]` — `on_message`
appends the user message before calling the client and never removes it on
failure. -/
theorem failed_turn_counterexample :
    handleTurn 1 [] ⟨"hi", none⟩ = [⟨"user", "hi"⟩] ∧
      handleTurn 1 [] ⟨"hi", none⟩ ≠ ([] : List ChatMessage) := by
  constructor
  · rfl
  · decide

/-- Claim C3 as amended: on a failed turn nothing is appended *after* the API
call — no assistant reply enters the history — but the user message appended
*before* the call remains: the post-turn history is exactly the truncation of
(pre-turn history + user message); it is a suffix of that list, and for
`max_context_length ≥ 1` its most recent entry is the failed turn's user
message. -/
theorem failed_turn_keeps_user_message (maxContextLength : Nat)
    (ctx : List ChatMessage) (u : String) (h : 1 ≤ maxContextLength) :
    handleTurn maxContextLength ctx ⟨u, none⟩ =
      truncateContext (2 * maxContextLength) (ctx ++ [⟨"user", u⟩]) ∧
    (handleTurn maxContextLength ctx ⟨u, none⟩).IsSuffix (ctx ++ [⟨"user", u⟩]) ∧
    (handleTurn maxContextLength ctx ⟨u, none⟩).getLast? = some ⟨"user", u⟩ := by
  exact ⟨rfl, truncateContext_suffix _ _,
    truncateContext_getLast?_concat (2 * maxContextLength) (by omega) ctx
      ⟨"user", u⟩⟩

/-- Witness for C3 (amended): concrete failed turn "hi" on history
`[{user, "a"}, {assistant, "b"}]` with `max_context_length = 1`: the result is
the truncation `[{assistant, "b"}, {user, "hi"}]`, a suffix of the appended
list, ending in the user message. -/
theorem failed_turn_keeps_user_message_witness :
    1 ≤ 1 ∧
      handleTurn 1 [⟨"user", "a"⟩, ⟨"assistant", "b"⟩] ⟨"hi", none⟩ =
        truncateContext 2 ([⟨"user", "a"⟩, ⟨"assistant", "b"⟩] ++ [⟨"user", "hi"⟩]) ∧
      (handleTurn 1 [⟨"user", "a"⟩, ⟨"assistant", "b"⟩] ⟨"hi", none⟩).getLast? =
        some ⟨"user", "hi"⟩ :=
  ⟨Nat.le_refl 1,
    (failed_turn_keeps_user_message 1 [⟨"user", "a"⟩, ⟨"assistant", "b"⟩] "hi"
      (Nat.le_refl 1)).1,
    (failed_turn_keeps_user_message 1 [⟨"user", "a"⟩, ⟨"assistant", "b"⟩] "hi"
      (Nat.le_refl 1)).2.2⟩

/-! ## API client (src/utils/openai_client.py) -/

/-- Lowercasing à la `str.lower()` (the classification keywords are ASCII, so
per-character lowercasing is faithful here). -/
def strLower (s : String) : String :=
  ⟨s.data.map Char.toLower⟩

/-- `str.strip()`: drop whitespace from both ends. -/
def pyStrip (s : String) : String :=
  ⟨((s.data.dropWhile Char.isWhitespace).reverse.dropWhile Char.isWhitespace).reverse⟩

/-- Does the character list start with `pat`? -/
def listSubAt : List Char → List Char → Bool
  | [], _ => true
  | _ :: _, [] => false
  | p :: ps, c :: cs => p == c && listSubAt ps cs

/-- Does `pat` occur contiguously somewhere in the list? -/
def listContainsSub (pat : List Char) : List Char → Bool
  | [] => pat.isEmpty
  | c :: rest => listSubAt pat (c :: rest) || listContainsSub pat rest

/-- Python's `pat in hay` substring test. -/
def strContains (hay pat : String) : Bool :=
  listContainsSub pat.data hay.data

/-- The failure classes distinguished by `get_chat_response`'s
`except` chain. -/
inductive ErrClass where
  | rateLimit
  | invalidReq
  | authErr
  | timeoutErr
  | other
deriving DecidableEq

/-- The `except Exception` chain of `get_chat_response`: lowercase the error
text, then test substrings in source order — rate/429, then invalid/400, then
auth/401, then timeout/timed out, else unclassified. -/
def classifyError (msg : String) : ErrClass :=
  let s := strLower msg
  if strContains s "rate" || strContains s "429" then ErrClass.rateLimit
  else if strContains s "invalid" || strContains s "400" then ErrClass.invalidReq
  else if strContains s "auth" || strContains s "401" then ErrClass.authErr
  else if strContains s "timeout" || strContains s "timed out" then
    ErrClass.timeoutErr
  else ErrClass.other

/-- Outcome of one attempt at the remote completion endpoint: the extracted
first-choice message content, or a raised error's string. -/
inductive ApiResult where
  | ok (text : String)
  | fail (msg : String)

/-- Observable outcome of one `get_chat_response` call: the returned
`(success, response_text, error_message)` triple plus the backoff delays slept
(in order) and the number of network attempts made. -/
structure CallTrace where
  success : Bool
  text : String
  error : String
  delays : List Nat
  attempts : Nat
deriving DecidableEq

/-- The `for attempt in range(self.max_retries)` loop of `get_chat_response`.
`fuel` counts the remaining loop iterations (`maxRetries - attempt` at the
canonical entry `attemptLoop maxRetries retryDelay env 0 maxRetries`); when it
runs out the unreachable-by-transient-paths fall-through return after the loop
is taken.  `env i` is attempt `i`'s outcome at the endpoint. -/
def attemptLoop (maxRetries retryDelay : Nat) (env : Nat → ApiResult) :
    Nat → Nat → CallTrace
  | _, 0 => ⟨false, "", "Service temporarily unavailable after multiple attempts",
      [], 0⟩
  | attempt, fuel + 1 =>
    match env attempt with
    | .ok text =>
      if pyStrip text == "" then ⟨false, "", "Empty response from OpenAI", [], 1⟩
      else ⟨true, pyStrip text, "", [], 1⟩
    | .fail msg =>
      match classifyError msg with
      | .rateLimit =>
        if attempt < maxRetries - 1 then
          let r := attemptLoop maxRetries retryDelay env (attempt + 1) fuel
          ⟨r.success, r.text, r.error,
            retryDelay * (attempt + 1) :: r.delays, r.attempts + 1⟩
        else ⟨false, "", "Rate limit exceeded. Please try again later.", [], 1⟩
      | .invalidReq => ⟨false, "", "Invalid request to AI service", [], 1⟩
      | .authErr => ⟨false, "", "Authentication failed", [], 1⟩
      | .timeoutErr =>
        if attempt < maxRetries - 1 then
          let r := attemptLoop maxRetries retryDelay env (attempt + 1) fuel
          ⟨r.success, r.text, r.error,
            retryDelay * 2 * (attempt + 1) :: r.delays, r.attempts + 1⟩
        else ⟨false, "", "Request timed out. Please try again.", [], 1⟩
      | .other =>
        if attempt < maxRetries - 1 then
          let r := attemptLoop maxRetries retryDelay env (attempt + 1) fuel
          ⟨r.success, r.text, r.error,
            retryDelay * (attempt + 1) :: r.delays, r.attempts + 1⟩
        else ⟨false, "", "AI service temporarily unavailable", [], 1⟩

/-- `OpenAIClient._validate_messages`: every entry has a role in
`{system, user, assistant}` and content that is non-empty after stripping (the
dict/str type checks hold by construction in the typed embedding). -/
def validate_messages (messages : List ChatMessage) : Bool :=
  messages.all (fun m =>
    (m.role == "system" || m.role == "user" || m.role == "assistant") &&
      !(pyStrip m.content == ""))

/-- `OpenAIClient.get_chat_response`: reject an empty message list, then an
invalid one, before entering the retry loop. -/
def get_chat_response (maxRetries retryDelay : Nat) (env : Nat → ApiResult)
    (messages : List ChatMessage) : CallTrace :=
  if messages.isEmpty then ⟨false, "", "No messages provided", [], 0⟩
  else if validate_messages messages then
    attemptLoop maxRetries retryDelay env 0 maxRetries
  else ⟨false, "", "Invalid message format", [], 0⟩

/-- The classes that retry (everything except invalid-request and
authentication). -/
def isTransient : ErrClass → Bool
  | .rateLimit => true
  | .timeoutErr => true
  | .other => true
  | .invalidReq => false
  | .authErr => false

/-- The error text returned when the final attempt fails with a given transient
class. -/
def exhaustionMessage : ErrClass → String
  | .rateLimit => "Rate limit exceeded. Please try again later."
  | .timeoutErr => "Request timed out. Please try again."
  | _ => "AI service temporarily unavailable"

/-- Claim C7: before every retried attempt `n` (1-based, `n < max_retries`)
that failed with a transient class, the loop sleeps exactly
`retry_delay × n` for a rate-limit/429 or unclassified error and exactly
`2 × retry_delay × n` for a timeout — a linear schedule in the attempt
number. -/
theorem backoff_schedule (maxRetries retryDelay fuel attempt : Nat)
    (env : Nat → ApiResult) (m : String)
    (hn : attempt + 1 < maxRetries)
    (he : env attempt = ApiResult.fail m)
    (ht : classifyError m = ErrClass.rateLimit ∨
      classifyError m = ErrClass.timeoutErr ∨ classifyError m = ErrClass.other) :
    (attemptLoop maxRetries retryDelay env attempt (fuel + 1)).delays =
      (if classifyError m = ErrClass.timeoutErr then 2 * retryDelay * (attempt + 1)
       else retryDelay * (attempt + 1)) ::
        (attemptLoop maxRetries retryDelay env (attempt + 1) fuel).delays := by
  have hlt : attempt < maxRetries - 1 := by omega
  rcases ht with h | h | h
  · simp [attemptLoop, he, h, hlt]
  · simp [attemptLoop, he, h, hlt]
    ring
  · simp [attemptLoop, he, h, hlt]

/-- Witness for C7: `max_retries = 3`, `retry_delay = 1`, every attempt failing
with a timeout: the first backoff is `2 × 1 × 1 = 2`; over the whole run the
slept delays are `[2, 4]`, while an all-rate-limit run sleeps `[1, 2]`. -/
theorem backoff_schedule_witness :
    0 + 1 < 3 ∧
    (classifyError "timed out" = ErrClass.rateLimit ∨
      classifyError "timed out" = ErrClass.timeoutErr ∨
      classifyError "timed out" = ErrClass.other) ∧
    (attemptLoop 3 1 (fun _ => ApiResult.fail "timed out") 0 (1 + 1)).delays =
      (if classifyError "timed out" = ErrClass.timeoutErr then 2 * 1 * (0 + 1)
       else 1 * (0 + 1)) ::
        (attemptLoop 3 1 (fun _ => ApiResult.fail "timed out") 1 1).delays ∧
    (attemptLoop 3 1 (fun _ => ApiResult.fail "timed out") 0 3).delays = [2, 4] ∧
    (attemptLoop 3 1 (fun _ => ApiResult.fail "429") 0 3).delays = [1, 2] :=
  ⟨by decide, by decide,
    backoff_schedule 3 1 1 0 (fun _ => ApiResult.fail "timed out") "timed out"
      (by decide) rfl (by decide),
    by decide, by decide⟩

/-- Claim C8: if the first attempt fails with a terminal-class error
(invalid-request/400 or authentication/401), `get_chat_response` returns the
corresponding failure immediately: exactly one network attempt, no backoff, and
for an authentication error the "Authentication failed" outcome. -/
theorem terminal_error_no_retry (maxRetries retryDelay : Nat)
    (env : Nat → ApiResult) (msgs : List ChatMessage) (m : String)
    (hm : msgs ≠ []) (hv : validate_messages msgs = true) (hmax : 0 < maxRetries)
    (he : env 0 = ApiResult.fail m)
    (hc : classifyError m = ErrClass.invalidReq ∨
      classifyError m = ErrClass.authErr) :
    get_chat_response maxRetries retryDelay env msgs =
      ⟨false, "",
        if classifyError m = ErrClass.authErr then "Authentication failed"
        else "Invalid request to AI service", [], 1⟩ := by
  obtain ⟨fuel, hfuel⟩ : ∃ k, maxRetries = k + 1 := ⟨maxRetries - 1, by omega⟩
  have hempty : msgs.isEmpty = false := by
    cases msgs with
    | nil => exact absurd rfl hm
    | cons a l => rfl
  unfold get_chat_response
  rw [hempty]
  subst hfuel
  rcases hc with h | h
  · simp [attemptLoop, he, h, hv]
  · simp [attemptLoop, he, h, hv]

/-- Witness for C8: valid one-message input, every attempt answering with a
"401 auth" error: the result is the `Authentication failed` failure with one
attempt and no delays. -/
theorem terminal_error_no_retry_witness :
    ([⟨"user", "hi"⟩] : List ChatMessage) ≠ [] ∧
    validate_messages [⟨"user", "hi"⟩] = true ∧
    0 < 3 ∧
    get_chat_response 3 1 (fun _ => ApiResult.fail "401 auth") [⟨"user", "hi"⟩] =
      ⟨false, "",
        if classifyError "401 auth" = ErrClass.authErr then "Authentication failed"
        else "Invalid request to AI service", [], 1⟩ :=
  ⟨by decide, by decide, by decide,
    terminal_error_no_retry 3 1 (fun _ => ApiResult.fail "401 auth")
      [⟨"user", "hi"⟩] "401 auth" (by decide) (by decide) (by decide) rfl
      (by decide)⟩

/-- Claim C9: for every message sequence violating the preconditions — empty,
or some entry with a role outside {system, user, assistant}, or some entry with
content empty after trimming — `get_chat_response` fails with the
invalid-input outcome and performs zero network attempts (and sleeps no
backoff). -/
theorem invalid_input_no_attempt (maxRetries retryDelay : Nat)
    (env : Nat → ApiResult) (msgs : List ChatMessage)
    (h : msgs = [] ∨ ∃ m ∈ msgs,
      ¬(m.role = "system" ∨ m.role = "user" ∨ m.role = "assistant") ∨
        pyStrip m.content = "") :
    (get_chat_response maxRetries retryDelay env msgs).success = false ∧
    (get_chat_response maxRetries retryDelay env msgs).attempts = 0 ∧
    (get_chat_response maxRetries retryDelay env msgs).delays = [] ∧
    ((get_chat_response maxRetries retryDelay env msgs).error =
        "No messages provided" ∨
      (get_chat_response maxRetries retryDelay env msgs).error =
        "Invalid message format") := by
  rcases h with h | ⟨m, hmem, hbad⟩
  · subst h
    exact ⟨rfl, rfl, rfl, Or.inl rfl⟩
  · have hempty : msgs.isEmpty = false := by
      cases msgs with
      | nil => simp at hmem
      | cons a l => rfl
    have hval : ¬ validate_messages msgs = true := by
      intro htrue
      rw [validate_messages, List.all_eq_true] at htrue
      have hm := htrue m hmem
      simp only [Bool.and_eq_true, Bool.or_eq_true, beq_iff_eq,
        Bool.not_eq_eq_eq_not, Bool.not_true, beq_eq_false_iff_ne] at hm
      rcases hbad with hb | hb
      · apply hb
        rcases hm.1 with (h | h) | h
        · exact Or.inl h
        · exact Or.inr (Or.inl h)
        · exact Or.inr (Or.inr h)
      · exact hm.2 hb
    unfold get_chat_response
    rw [hempty]
    simp [hval]

/-- Witness for C9: the empty sequence yields zero attempts and a failed
result; a sequence whose only entry has a bad role, and one whose content is
whitespace, behave the same (checked by evaluation). -/
theorem invalid_input_no_attempt_witness :
    (get_chat_response 3 1 (fun _ => ApiResult.ok "x")
      ([] : List ChatMessage)).attempts = 0 ∧
    (get_chat_response 3 1 (fun _ => ApiResult.ok "x")
      ([] : List ChatMessage)).success = false ∧
    (get_chat_response 3 1 (fun _ => ApiResult.ok "x")
      [⟨"bot", "hi"⟩]).attempts = 0 ∧
    (get_chat_response 3 1 (fun _ => ApiResult.ok "x")
      [⟨"user", "  "⟩]).attempts = 0 :=
  ⟨(invalid_input_no_attempt 3 1 (fun _ => ApiResult.ok "x") [] (Or.inl rfl)).2.1,
    (invalid_input_no_attempt 3 1 (fun _ => ApiResult.ok "x") [] (Or.inl rfl)).1,
    by decide, by decide⟩

theorem attemptLoop_all_transient (maxRetries retryDelay : Nat)
    (env : Nat → ApiResult) :
    ∀ (fuel attempt : Nat), fuel = maxRetries - attempt → attempt < maxRetries →
      (∀ i, attempt ≤ i → i < maxRetries →
        ∃ m, env i = ApiResult.fail m ∧ isTransient (classifyError m) = true) →
      (attemptLoop maxRetries retryDelay env attempt fuel).success = false ∧
      (attemptLoop maxRetries retryDelay env attempt fuel).attempts =
        maxRetries - attempt ∧
      ∃ m, env (maxRetries - 1) = ApiResult.fail m ∧
        (attemptLoop maxRetries retryDelay env attempt fuel).error =
          exhaustionMessage (classifyError m) := by
  intro fuel
  induction fuel with
  | zero =>
    intro attempt hfuel ha _
    omega
  | succ fuel ih =>
    intro attempt hfuel ha htrans
    obtain ⟨m, he, htr⟩ := htrans attempt (Nat.le_refl _) ha
    by_cases hlt : attempt < maxRetries - 1
    · have hrec := ih (attempt + 1) (by omega) (by omega)
        (fun i h1 h2 => htrans i (by omega) h2)
      cases hcl : classifyError m with
      | rateLimit =>
        refine ⟨?_, ?_, ?_⟩ <;> simp only [attemptLoop, he, hcl, if_pos hlt]
        · exact hrec.1
        · have := hrec.2.1
          omega
        · obtain ⟨m', hm', herr⟩ := hrec.2.2
          exact ⟨m', hm', herr⟩
      | timeoutErr =>
        refine ⟨?_, ?_, ?_⟩ <;> simp only [attemptLoop, he, hcl, if_pos hlt]
        · exact hrec.1
        · have := hrec.2.1
          omega
        · obtain ⟨m', hm', herr⟩ := hrec.2.2
          exact ⟨m', hm', herr⟩
      | other =>
        refine ⟨?_, ?_, ?_⟩ <;> simp only [attemptLoop, he, hcl, if_pos hlt]
        · exact hrec.1
        · have := hrec.2.1
          omega
        · obtain ⟨m', hm', herr⟩ := hrec.2.2
          exact ⟨m', hm', herr⟩
      | invalidReq => rw [hcl] at htr; simp [isTransient] at htr
      | authErr => rw [hcl] at htr; simp [isTransient] at htr
    · have heq : attempt = maxRetries - 1 := by omega
      cases hcl : classifyError m with
      | rateLimit =>
        refine ⟨?_, ?_, ?_⟩ <;> simp only [attemptLoop, he, hcl, if_neg hlt]
        · omega
        · exact ⟨m, heq ▸ he, by rw [hcl]; rfl⟩
      | timeoutErr =>
        refine ⟨?_, ?_, ?_⟩ <;> simp only [attemptLoop, he, hcl, if_neg hlt]
        · omega
        · exact ⟨m, heq ▸ he, by rw [hcl]; rfl⟩
      | other =>
        refine ⟨?_, ?_, ?_⟩ <;> simp only [attemptLoop, he, hcl, if_neg hlt]
        · omega
        · exact ⟨m, heq ▸ he, by rw [hcl]; rfl⟩
      | invalidReq => rw [hcl] at htr; simp [isTransient] at htr
      | authErr => rw [hcl] at htr; simp [isTransient] at htr

/-- Claim C4 counterexample: two runs in which every one of the 3 attempts
fails with a transient-class error do *not* yield the same result — the final
error text depends on the transient class of the last attempt, and neither
equals the generic after-the-loop message (which is unreachable on these
paths). -/
theorem transient_exhaustion_counterexample :
    (get_chat_response 3 1 (fun _ => ApiResult.fail "429")
      [⟨"user", "hi"⟩]).error = "Rate limit exceeded. Please try again later." ∧
    (get_chat_response 3 1 (fun _ => ApiResult.fail "timed out")
      [⟨"user", "hi"⟩]).error = "Request timed out. Please try again." ∧
    (get_chat_response 3 1 (fun _ => ApiResult.fail "429")
        [⟨"user", "hi"⟩]).error ≠
      (get_chat_response 3 1 (fun _ => ApiResult.fail "timed out")
        [⟨"user", "hi"⟩]).error ∧
    (get_chat_response 3 1 (fun _ => ApiResult.fail "429")
        [⟨"user", "hi"⟩]).error ≠
      "Service temporarily unavailable after multiple attempts" := by
  refine ⟨rfl, rfl, by decide, by decide⟩

/-- Claim C4 as amended: when every one of the `max_retries` attempts fails
with a transient-class error (rate-limit/429, timeout, or unclassified),
`get_chat_response` returns a failure after exactly `max_retries` network
attempts, with the exhaustion message determined by the transient class of the
final attempt ("Rate limit exceeded. Please try again later.",
"Request timed out. Please try again.", or
"AI service temporarily unavailable") — not one shared outcome; the generic
fall-through message after the loop is not produced on these paths. -/
theorem transient_exhaustion_result (maxRetries retryDelay : Nat)
    (env : Nat → ApiResult) (msgs : List ChatMessage)
    (hm : msgs ≠ []) (hv : validate_messages msgs = true) (hmax : 0 < maxRetries)
    (htrans : ∀ i, i < maxRetries →
      ∃ m, env i = ApiResult.fail m ∧ isTransient (classifyError m) = true) :
    (get_chat_response maxRetries retryDelay env msgs).success = false ∧
    (get_chat_response maxRetries retryDelay env msgs).attempts = maxRetries ∧
    ∃ m, env (maxRetries - 1) = ApiResult.fail m ∧
      (get_chat_response maxRetries retryDelay env msgs).error =
        exhaustionMessage (classifyError m) := by
  have hempty : msgs.isEmpty = false := by
    cases msgs with
    | nil => exact absurd rfl hm
    | cons a l => rfl
  have hcall : get_chat_response maxRetries retryDelay env msgs =
      attemptLoop maxRetries retryDelay env 0 maxRetries := by
    unfold get_chat_response
    rw [hempty]
    simp [hv]
  rw [hcall]
  have h := attemptLoop_all_transient maxRetries retryDelay env maxRetries 0
    (by omega) hmax (fun i _ h2 => htrans i h2)
  exact ⟨h.1, by have := h.2.1; omega, h.2.2⟩

/-- Witness for C4 (amended): all three attempts fail with an unclassified
error ("boom"): the call fails after exactly 3 attempts with the unclassified
exhaustion message. -/
theorem transient_exhaustion_result_witness :
    ([⟨"user", "hi"⟩] : List ChatMessage) ≠ [] ∧
    validate_messages [⟨"user", "hi"⟩] = true ∧
    0 < 3 ∧
    (get_chat_response 3 1 (fun _ => ApiResult.fail "boom")
      [⟨"user", "hi"⟩]).success = false ∧
    (get_chat_response 3 1 (fun _ => ApiResult.fail "boom")
      [⟨"user", "hi"⟩]).attempts = 3 :=
  ⟨by decide, by decide, by decide,
    (transient_exhaustion_result 3 1 (fun _ => ApiResult.fail "boom")
      [⟨"user", "hi"⟩] (by decide) (by decide) (by decide)
      (fun i _ => ⟨"boom", rfl, by decide⟩)).1,
    (transient_exhaustion_result 3 1 (fun _ => ApiResult.fail "boom")
      [⟨"user", "hi"⟩] (by decide) (by decide) (by decide)
      (fun i _ => ⟨"boom", rfl, by decide⟩)).2.1⟩

end DiscordBot
